import Mathlib

/-!
Verification development for the Web GIS Resource Manager front end and its
Supabase SQL layer.  The definitions below are a shallow embedding of the
client-side interaction/state-synchronization component (the main page
component) and of the SQL RPCs (`update_resource`,
`create_resource_from_geojson`) together with the `resources` /
`resource_activity` tables.  Machine floats are modelled by `ℚ` where a
numeric value matters and by their source strings where only parsing
success matters; JSON values are modelled opaquely by their serialized
text.
-/

/- ==================== JS string primitives ==================== -/

/-- JS whitespace test (ASCII subset, which is what the repo's inputs use). -/
def isWs (c : Char) : Bool :=
  c = ' ' || c = '\t' || c = '\n' || c = '\r' || c = '\x0b' || c = '\x0c'

/-- `leadsWith pre l` is true when `pre` is a leading segment of `l`
(JS `String.prototype.startsWith` on char lists). -/
def leadsWith : List Char → List Char → Bool
  | [], _ => true
  | _ :: _, [] => false
  | a :: as, b :: bs => a = b && leadsWith as bs

/-- `hasSub needle hay` is JS `hay.includes(needle)` on char lists. -/
def hasSub (needle : List Char) : List Char → Bool
  | [] => needle.isEmpty
  | c :: rest => leadsWith needle (c :: rest) || hasSub needle rest

/-- JS `s.trim()` (ASCII whitespace). -/
def jsTrim (s : String) : String :=
  String.mk (((s.data.dropWhile isWs).reverse.dropWhile isWs).reverse)

/-- `isBlank s` is true exactly when JS `s.trim()` is the empty string,
i.e. when `!s.trim()` is truthy in the source. -/
def isBlank (s : String) : Bool :=
  s.data.all isWs

/-- JS `s.toLowerCase()` viewed as a char list (ASCII case mapping). -/
def lowerData (s : String) : List Char :=
  s.data.map Char.toLower

/-- Whether JS `parseFloat v` yields a number (not `NaN`): after optional
leading whitespace and an optional sign, the string must continue with a
digit, with a dot followed by a digit, or with the literal `Infinity`.
This embeds the source predicate `isNum = (v) => !Number.isNaN(parseFloat(v))`. -/
def parseFloatHits (v : String) : Bool :=
  let cs := v.data.dropWhile isWs
  let cs := match cs with
    | c :: rest => if c = '+' || c = '-' then rest else c :: rest
    | [] => []
  match cs with
  | [] => false
  | c :: rest =>
    c.isDigit ||
    (c = '.' && (match rest with | d :: _ => d.isDigit | [] => false)) ||
    leadsWith "Infinity".data (c :: rest)

/-- Source: `const isNum = (v: string) => !Number.isNaN(parseFloat(v));` -/
def isNum (v : String) : Bool := parseFloatHits v

/-- Source: `const must = (v: string) => v.trim().length > 0;` -/
def must (v : String) : Bool := !(isBlank v)

/-- JS `x.toFixed(6)` for a rational coordinate value: round to 6 decimal
digits and print with exactly 6 fractional digits. -/
def toFixed6 (x : ℚ) : String :=
  let n : ℤ := round (x * 1000000)
  let sign := if n < 0 then "-" else ""
  let a := n.natAbs
  let fracStr := toString (a % 1000000)
  let pad := String.mk (List.replicate (6 - fracStr.length) '0')
  sign ++ toString (a / 1000000) ++ "." ++ pad ++ fracStr

/- ==================== Server-side model (Supabase SQL) ==================== -/

/-- A GeoJSON geometry value as sent over the persistence boundary.  A
point built from form/staged strings carries the strings whose
`parseFloat` defines its coordinates; a drawn geometry (polygon / line)
is carried opaquely by its kind tag and draw payload. -/
inductive GeomJson where
  | point (lonStr latStr : String)
  | drawn (polygon : Bool) (payload : String)
deriving DecidableEq

/-- A stored PostGIS geometry: `st_setsrid(st_geomfromgeojson(j), 4326)`
modelled as an injective wrapper of the GeoJSON input. -/
structure GeomVal where
  fromJson : GeomJson
deriving DecidableEq

/-- One row of `public.resources`. -/
structure Resource where
  id : ℤ
  name : String
  rtype : String
  status : String
  properties : Option String
  geom : GeomVal
deriving DecidableEq

/-- One row of `public.resource_activity` (the append-only audit table). -/
structure Activity where
  resource_id : Option ℤ
  action : String
  old_values : Option Resource
  new_values : Option Resource
deriving DecidableEq

/-- The persistent store: the `resources` table, the `resource_activity`
table, and the `bigserial` id counter. -/
structure Store where
  resources : List Resource
  activity : List Activity
  nextId : ℤ
deriving DecidableEq

/-- Direct table insert `supabase.from("resources").insert({...})` as used
by `createFromFormPoint` and the `draw.create` handler.  The base schema
declares no trigger on `public.resources`, so a plain insert touches only
the `resources` table. -/
def insertResourceRow (st : Store) (nm rt sta : String) (props : Option String)
    (g : GeomJson) : Store :=
  { st with
    resources := st.resources ++ [⟨st.nextId, nm, rt, sta, props, ⟨g⟩⟩]
    nextId := st.nextId + 1 }

/-- RPC `public.create_resource_from_geojson` (audit-logging version): insert
the row, then append one `resource_activity` row with action `create` and
`new_values` set to the new row. -/
def create_resource_from_geojson (st : Store) (p_name p_rtype : String)
    (p_status p_properties : Option String) (p_geometry : GeomJson) : Store :=
  let new_row : Resource :=
    ⟨st.nextId, p_name, p_rtype, p_status.getD "active", p_properties, ⟨p_geometry⟩⟩
  { st with
    resources := st.resources ++ [new_row]
    activity := st.activity ++ [⟨some new_row.id, "create", none, some new_row⟩]
    nextId := st.nextId + 1 }

/-- The `update ... set f = coalesce(p_f, f)` row transformation of RPC
`public.update_resource`; the geometry column uses
`coalesce(case when p_geometry is not null then st_... end, geom)`. -/
def applyUpdate (p_name p_rtype p_status p_properties : Option String)
    (p_geometry : Option GeomJson) (r : Resource) : Resource :=
  { r with
    name := p_name.getD r.name
    rtype := p_rtype.getD r.rtype
    status := p_status.getD r.status
    properties := match p_properties with
      | some p => some p
      | none => r.properties
    geom := match p_geometry with
      | some g => ⟨g⟩
      | none => r.geom }

/-- RPC `public.update_resource`: read the old row, apply the sparse
(`coalesce`) update to the row with the given id, and append one
`resource_activity` row with action `update` carrying the old/new row
snapshots. -/
def update_resource (st : Store) (p_id : ℤ)
    (p_name p_rtype p_status p_properties : Option String)
    (p_geometry : Option GeomJson) : Store :=
  let old_row := st.resources.find? (fun r => r.id = p_id)
  let upd := applyUpdate p_name p_rtype p_status p_properties p_geometry
  { st with
    resources := st.resources.map (fun r => if r.id = p_id then upd r else r)
    activity := st.activity ++ [⟨some p_id, "update", old_row, old_row.map upd⟩] }

/- ==================== Client-side model ==================== -/

/-- GeoJSON geometry kind tags used by the client. -/
inductive GeomKind where
  | point
  | lineString
  | polygon
deriving DecidableEq

/-- A client feature geometry.  Only Point coordinates are ever read back
by the modelled client code (for staging lon/lat strings). -/
inductive FGeom where
  | pt (x y : ℚ)
  | ln (payload : String)
  | pg (payload : String)
deriving DecidableEq

/-- The geometry kind of a client feature (`f.geometry.type`). -/
def FGeom.kind : FGeom → GeomKind
  | .pt _ _ => .point
  | .ln _ => .lineString
  | .pg _ => .polygon

/-- One fetched row of the `resources_geojson` view as kept in the Local
Feature Snapshot; `propsJson` is `JSON.stringify(row.properties || {...})`
(the serialized property bag, `"\x7b\x7d"` when null). -/
structure ResourceRow where
  id : ℤ
  name : String
  rtype : String
  status : String
  propsJson : String
  geom : FGeom
deriving DecidableEq

/-- The ids targeted by the three highlight-layer filters
`point-selected`, `route-selected`, `geofence-selected-outline`
(`-1` is the "no selection" sentinel used by `ensureSourcesAndLayers`). -/
structure HighlightFilters where
  pointSelectedId : ℤ
  routeSelectedId : ℤ
  fenceSelectedId : ℤ
deriving DecidableEq

/-- `type CreateMode = "off" | "point" | "geofence" | "route"` -/
inductive CreateMode where
  | off
  | point
  | geofence
  | route
deriving DecidableEq

/-- `type MovePointMode = "off" | "pick" | "drag"` -/
inductive MovePointMode where
  | off
  | pick
  | drag
deriving DecidableEq

/-- `const [panelTab, setPanelTab] = useState<"create" | "edit">` -/
inductive PanelTab where
  | create
  | edit
deriving DecidableEq

/-- The `editing` state: `{ resourceId: number; drawId: string } | null`. -/
structure EditingSession where
  resourceId : ℤ
  drawId : String
deriving DecidableEq

/-- The mutable client state of the page component (the fields the modelled
handlers read or write).  `drawFeatures` is the draw-tool overlay content,
`dragMarker` whether the drag handle marker exists, `filters` the three
highlight-layer filters. -/
structure ClientState where
  createMode : CreateMode
  movePointMode : MovePointMode
  editing : Option EditingSession
  selectedId : Option ℤ
  selectedGeomType : Option GeomKind
  name : String
  rtype : String
  rstatus : String
  lon : String
  lat : String
  stageLon : String
  stageLat : String
  q : String
  fc : List ResourceRow
  filters : HighlightFilters
  drawFeatures : List FGeom
  dragMarker : Bool
  panelOpen : Bool
  panelTab : PanelTab
  fabOpen : Bool
  statusMsg : String
deriving DecidableEq

/-- A persistence request issued by a client handler. -/
inductive PersistCall where
  | insertRow (nm rt sta : String) (props : Option String) (g : GeomJson)
  | rpcUpdateResource (p_id : ℤ) (p_name p_rtype p_status p_properties : Option String)
      (p_geometry : Option GeomJson)
  | rpcCreateFromGeojson (p_name p_rtype : String) (p_status p_properties : Option String)
      (p_geometry : GeomJson)
deriving DecidableEq

/-- Store semantics of one persistence request. -/
def PersistCall.applyStore : PersistCall → Store → Store
  | .insertRow nm rt sta props g, st => insertResourceRow st nm rt sta props g
  | .rpcUpdateResource p_id pn prt ps pp pg, st => update_resource st p_id pn prt ps pp pg
  | .rpcCreateFromGeojson pn prt ps pp pg, st => create_resource_from_geojson st pn prt ps pp pg

/-- Store semantics of an optional persistence request (no request leaves
the store untouched). -/
def applyOpt : Option PersistCall → Store → Store
  | none, st => st
  | some c, st => c.applyStore st

/-- The three highlight filters as rewritten both in `refreshData` and in
`selectById`: the filter whose kind matches the selected geometry kind
targets the selected id (`selectedId ?? -1`), the other two target `-1`. -/
def highlightFromSelection (sel : Option ℤ) (g : Option GeomKind) : HighlightFilters :=
  ⟨if g = some GeomKind.point then sel.getD (-1) else -1,
   if g = some GeomKind.lineString then sel.getD (-1) else -1,
   if g = some GeomKind.polygon then sel.getD (-1) else -1⟩

/-- The search haystack synthesized in `refreshData`:
the template literal joining name, rtype, status and the serialized
property bag with single spaces. -/
def rowHay (r : ResourceRow) : String :=
  r.name ++ " " ++ r.rtype ++ " " ++ r.status ++ " " ++ r.propsJson

/-- The client-side free-text predicate of `refreshData`: keep every row
when `q.trim()` is empty, else lowercase both sides and test
`hay.includes(needle)`. -/
def rowMatchesSearch (q : String) (r : ResourceRow) : Bool :=
  if isBlank q then true
  else hasSub (lowerData q) (lowerData (rowHay r))

/-- `refreshData` (success path, style loaded): replace the Local Feature
Snapshot with the fetched rows narrowed by the free-text predicate and
recompute the three highlight filters from the current selection.  It
never writes `selectedId` or `selectedGeomType`. -/
def refreshData (s : ClientState) (rows : List ResourceRow) : ClientState :=
  { s with
    fc := rows.filter (rowMatchesSearch s.q)
    filters := highlightFromSelection s.selectedId s.selectedGeomType }

/-- A snapshot feature matches the `point-selected` layer: it is an
unclustered feature of the point source and its id equals the filter's
target id. -/
def MatchesPointSelected (flt : HighlightFilters) (f : ResourceRow) : Prop :=
  f.geom.kind = GeomKind.point ∧ f.id = flt.pointSelectedId

/-- A snapshot feature matches the `route-selected` layer
(`geometry-type = LineString` and id equal to the filter's target). -/
def MatchesRouteSelected (flt : HighlightFilters) (f : ResourceRow) : Prop :=
  f.geom.kind = GeomKind.lineString ∧ f.id = flt.routeSelectedId

/-- A snapshot feature matches the `geofence-selected-outline` layer
(`geometry-type = Polygon` and id equal to the filter's target). -/
def MatchesFenceSelected (flt : HighlightFilters) (f : ResourceRow) : Prop :=
  f.geom.kind = GeomKind.polygon ∧ f.id = flt.fenceSelectedId

instance (flt : HighlightFilters) (f : ResourceRow) : Decidable (MatchesPointSelected flt f) :=
  instDecidableAnd

instance (flt : HighlightFilters) (f : ResourceRow) : Decidable (MatchesRouteSelected flt f) :=
  instDecidableAnd

instance (flt : HighlightFilters) (f : ResourceRow) : Decidable (MatchesFenceSelected flt f) :=
  instDecidableAnd

/-- `selectById(id, geomType?)`: resolve the geometry kind (explicit
argument, else the kind of the feature found in the snapshot), set the
selection, populate the edit form from the found feature, stage the point
coordinates at 6 digits (blank for non-points), rewrite the three
highlight filters, and set the status message. -/
def selectById (s : ClientState) (id : ℤ) (geomType : Option GeomKind) : ClientState :=
  let f := s.fc.find? (fun x => x.id = id)
  let gtype : Option GeomKind :=
    match geomType with
    | some g => some g
    | none => f.map (fun x => x.geom.kind)
  let s1 := { s with
    selectedId := some id
    selectedGeomType := gtype
    panelOpen := true
    panelTab := PanelTab.edit
    fabOpen := false }
  let s2 := match f with
    | some x =>
      let s1a := { s1 with name := x.name, rtype := x.rtype, rstatus := x.status }
      match gtype, x.geom with
      | some GeomKind.point, FGeom.pt cx cy =>
        { s1a with stageLon := toFixed6 cx, stageLat := toFixed6 cy }
      | _, _ => { s1a with stageLon := "", stageLat := "" }
    | none => s1
  { s2 with
    filters := highlightFromSelection (some id) gtype
    statusMsg := "Selected id=" ++ toString id }

/-- `cancelMove`: leave move mode, remove the drag handle, reset the staged
coordinates to the selected resource's last-synced point geometry (when a
point is selected), and set the status message. -/
def cancelMove (s : ClientState) : ClientState :=
  let s1 := { s with movePointMode := MovePointMode.off, dragMarker := false }
  match s1.selectedId.bind (fun sid => s1.fc.find? (fun r => r.id = sid)) with
  | some r =>
    match r.geom with
    | FGeom.pt x y =>
      { s1 with stageLon := toFixed6 x, stageLat := toFixed6 y, statusMsg := "Move canceled." }
    | _ => { s1 with statusMsg := "Move canceled." }
  | none => { s1 with statusMsg := "Move canceled." }

/-- `startCreate(mode)`: empty the draw overlay (`draw.deleteAll`), cancel
any move in progress, clear the selection, open the create panel, and set
the new create mode.  The `editing` state is not written. -/
def startCreate (s : ClientState) (mode : CreateMode) : ClientState :=
  let s1 := { s with drawFeatures := [] }
  let s2 := cancelMove s1
  { s2 with
    selectedId := none
    selectedGeomType := none
    panelOpen := true
    panelTab := PanelTab.create
    fabOpen := false
    createMode := mode
    statusMsg := "Create mode started." }

/-- `cancelEditGeometry`: clear the draw overlay and the vertex-edit
session state. -/
def cancelEditGeometry (s : ClientState) : ClientState :=
  { s with
    drawFeatures := []
    editing := none
    statusMsg := "Geometry edit canceled." }

/-- The concrete map layers whose click handlers can change the selection. -/
inductive ClickLayer where
  | points
  | pointSelected
  | routes
  | geofencesFill
  | geofencesOutline
deriving DecidableEq

/-- The geometry kind a layer click passes to `selectById`. -/
def layerKind : ClickLayer → GeomKind
  | .points => .point
  | .pointSelected => .point
  | .routes => .lineString
  | .geofencesFill => .polygon
  | .geofencesOutline => .polygon

/-- The guard of `selectPoint` / `selectRoute` / `selectFence` in
`bindLayerEvents`: point-layer clicks are allowed while Idle or in
move-pick; line/polygon-layer clicks only while the move mode is off;
every layer click is dropped while a create mode is active. -/
def clickAllowed (s : ClientState) (L : ClickLayer) : Bool :=
  if s.createMode ≠ CreateMode.off then false
  else match L with
    | .points | .pointSelected =>
      !(s.movePointMode ≠ MovePointMode.off && s.movePointMode ≠ MovePointMode.pick)
    | _ => !(s.movePointMode ≠ MovePointMode.off)

/-- A feature click on one of the five selectable layers, carrying the
clicked feature's id when it is a number (`typeof f.properties?.id ===
"number"`); when the guard passes and the id is present, the handler
clears an active vertex-edit session and applies the new selection. -/
def handleLayerClick (s : ClientState) (L : ClickLayer) (fid : Option ℤ) : ClientState :=
  if clickAllowed s L then
    match fid with
    | some i =>
      let s1 := if s.editing ≠ none then { s with drawFeatures := [], editing := none } else s
      selectById s1 i (some (layerKind L))
    | none => s
  else s

/-- `applyMove`: reject when no point resource is selected or either staged
coordinate string fails numeric parsing; otherwise issue the geometry-only
`update_resource` request, leave move mode and remove the drag handle. -/
def applyMove (s : ClientState) : Option PersistCall × ClientState :=
  match s.selectedId with
  | none => (none, s)
  | some sid =>
    if s.selectedGeomType ≠ some GeomKind.point then (none, s)
    else if !(isNum s.stageLon && isNum s.stageLat) then
      (none, { s with statusMsg := "Invalid coordinates." })
    else
      (some (PersistCall.rpcUpdateResource sid none none none none
              (some (GeomJson.point s.stageLon s.stageLat))),
       { s with
          statusMsg := "Point moved."
          movePointMode := MovePointMode.off
          dragMarker := false })

/-- `formValid = must(name) && must(rstatus) && must(rtype) && isNum(lon) && isNum(lat)` -/
def formValid (s : ClientState) : Bool :=
  must s.name && must s.rstatus && must s.rtype && isNum s.lon && isNum s.lat

/-- Outcome of `JSON.parse(propsText)` wrapped in the source's try/catch:
`ok v` parsed to the (possibly null) property bag `v`, `err` threw. -/
inductive JsonParse where
  | ok (v : Option String)
  | err
deriving DecidableEq

/-- `createFromFormPoint`: reject on an invalid form or invalid properties
JSON; otherwise issue a direct `resources` insert with the trimmed name
and a Point geometry built from the staged lon/lat strings, then clear
the staged coordinates. -/
def createFromFormPoint (s : ClientState) (propsParse : JsonParse) :
    Option PersistCall × ClientState :=
  if !formValid s then (none, { s with statusMsg := "Missing or invalid fields." })
  else match propsParse with
  | .err => (none, { s with statusMsg := "Properties JSON invalid." })
  | .ok props =>
    (some (PersistCall.insertRow (jsTrim s.name) s.rtype s.rstatus props
            (GeomJson.point s.lon s.lat)),
     { s with statusMsg := "Created.", lon := "", lat := "" })

/-- The `draw.create` handler (geofence/route create by draw): properties
JSON parse failures fall back to null, the display name falls back to a
synthesized timestamped default, and the finished geometry is persisted
by a direct `resources` insert with rtype `geofence` for polygons and
`route` for lines; the draw overlay is emptied and create mode left. -/
def drawCreateHandler (s : ClientState) (isPolygon : Bool) (payload : String)
    (propsParse : JsonParse) (nowStr : String) : Option PersistCall × ClientState :=
  let props : Option String := match propsParse with
    | .ok v => v
    | .err => none
  let displayName :=
    if !(isBlank s.name) then jsTrim s.name
    else (if isPolygon then "geofence " else "route ") ++ nowStr
  (some (PersistCall.insertRow displayName (if isPolygon then "geofence" else "route")
          s.rstatus props (GeomJson.drawn isPolygon payload)),
   { s with
      drawFeatures := []
      createMode := CreateMode.off
      statusMsg := "Created." })

/- ==================== Attachment upload batch model ==================== -/

/-- A staged file as seen by `uploadFilesForResource`: original name,
declared content type (`""` for a missing/falsy type) and byte size. -/
structure UpFile where
  name : String
  ctype : String
  size : ℕ
deriving DecidableEq

/-- What the external services would do for one accepted file: both the
storage upload and the metadata insert succeed, or the storage upload
errors, or the storage upload succeeds and the metadata insert errors. -/
inductive UpOutcome where
  | ok
  | storageFail
  | insertFail
deriving DecidableEq

/-- `isImageFile`: the declared type starts with `image/` (a falsy empty
type also fails the source's `f && f.type && ...` test). -/
def isImageFile (f : UpFile) : Bool :=
  leadsWith "image/".data f.ctype.data

/-- The size rejection test `file.size / (1024*1024) > MAX_IMG_MB` with
`MAX_IMG_MB = 20`: strictly more than 20 MiB. -/
def sizeRejected (f : UpFile) : Bool :=
  decide (20 * 1048576 < f.size)

/-- A file passes both local validations. -/
def acceptedFile (f : UpFile) : Bool :=
  isImageFile f && !sizeRejected f

/-- The visible skip message emitted for a locally rejected file. -/
def skipMsg (f : UpFile) : String :=
  if !(isImageFile f) then "Skipped non-image: " ++ f.name
  else "Skipped " ++ f.name ++ ": size exceeds cap"

/-- Observable outcome of one `uploadFilesForResource` batch:
`storageAttempts` the storage upload calls made (file names, in order),
`inserted` the metadata rows inserted, `msgs` the status messages shown,
`failed` whether the batch aborted in the catch branch. -/
structure UploadResult where
  storageAttempts : List String
  inserted : List String
  msgs : List String
  failed : Bool
deriving DecidableEq

/-- `uploadFilesForResource`'s sequential loop over the staged files, each
paired with the external outcome it would see: non-image and oversized
files are skipped with a message and no storage call; an accepted file is
uploaded and then its metadata inserted, and a thrown error aborts the
whole batch without undoing earlier files. -/
def uploadRun : List (UpFile × UpOutcome) → UploadResult
  | [] => ⟨[], [], [], false⟩
  | (f, out) :: rest =>
    if !(isImageFile f) then
      let r := uploadRun rest
      { r with msgs := skipMsg f :: r.msgs }
    else if sizeRejected f then
      let r := uploadRun rest
      { r with msgs := skipMsg f :: r.msgs }
    else
      match out with
      | .storageFail => ⟨[f.name], [], ["Upload failed"], true⟩
      | .insertFail => ⟨[f.name], [], ["Upload failed"], true⟩
      | .ok =>
        let r := uploadRun rest
        ⟨f.name :: r.storageAttempts, f.name :: r.inserted, r.msgs, r.failed⟩

/-- Modelled from the spec ("processed sequentially so a failure partway
through stops subsequent uploads"): the storage calls a batch of accepted
files should see — every file up to and including the first failing one. -/
def specBatchAttempts : List (UpFile × UpOutcome) → List String
  | [] => []
  | (f, UpOutcome.ok) :: rest => f.name :: specBatchAttempts rest
  | (f, _) :: _ => [f.name]

/-- Modelled from the spec ("does not roll back ones already committed"):
the fully committed files of a batch of accepted files — the longest
all-successful leading segment. -/
def specBatchCommitted : List (UpFile × UpOutcome) → List String
  | [] => []
  | (f, UpOutcome.ok) :: rest => f.name :: specBatchCommitted rest
  | (_, _) :: _ => []

/- ==================== bboxOf model ==================== -/

/-- The nested coordinate structure of a GeoJSON geometry as walked by
`bboxOf`: either a numeric `[x, y]` position (`coords[0]` is a number) or
an array of nested coordinate arrays. -/
inductive Coords where
  | pair (x y : ℚ)
  | node (cs : List Coords)

/-- The running bounding box `[minX, minY, maxX, maxY]`, starting from
`[Infinity, Infinity, -Infinity, -Infinity]`. -/
abbrev BB := WithTop ℚ × WithTop ℚ × WithBot ℚ × WithBot ℚ

/-- One `bboxOf` base-case step: fold a position into the running box. -/
def bbStep (bb : BB) (p : ℚ × ℚ) : BB :=
  (min bb.1 ↑p.1, min bb.2.1 ↑p.2, max bb.2.2.1 ↑p.1, max bb.2.2.2 ↑p.2)

mutual

/-- The recursive `walk` of `bboxOf`. -/
def bboxWalk : Coords → BB → BB
  | Coords.pair x y, bb => bbStep bb (x, y)
  | Coords.node cs, bb => bboxWalkList cs bb

/-- `for (const c of coords) walk(c, bb)` -/
def bboxWalkList : List Coords → BB → BB
  | [], bb => bb
  | c :: rest, bb => bboxWalkList rest (bboxWalk c bb)

end

/-- `bboxOf(geom)`: walk the coordinates starting from the infinite box. -/
def bboxOf (g : Coords) : BB :=
  bboxWalk g (⊤, ⊤, ⊥, ⊥)

mutual

/-- The numeric `[x, y]` positions of a geometry, in walk order. -/
def pairsOf : Coords → List (ℚ × ℚ)
  | Coords.pair x y => [(x, y)]
  | Coords.node cs => pairsList cs

/-- Positions of a list of nested coordinate arrays. -/
def pairsList : List Coords → List (ℚ × ℚ)
  | [] => []
  | c :: rest => pairsOf c ++ pairsList rest

end

/- ==================== Spec-side predicates and fixtures ==================== -/

/-- Modelled from the claim's wording for the search scenario: the row's
name, type, status, or serialized property bag case-insensitively
contains the search text as a substring (each field tested on its own). -/
def claimFieldContains (q : String) (r : ResourceRow) : Bool :=
  hasSub (lowerData q) (lowerData r.name) ||
  hasSub (lowerData q) (lowerData r.rtype) ||
  hasSub (lowerData q) (lowerData r.status) ||
  hasSub (lowerData q) (lowerData r.propsJson)

/-- A neutral client state used as the base of the concrete fixtures. -/
def baseState : ClientState :=
  { createMode := CreateMode.off
    movePointMode := MovePointMode.off
    editing := none
    selectedId := none
    selectedGeomType := none
    name := ""
    rtype := "site"
    rstatus := "active"
    lon := ""
    lat := ""
    stageLon := ""
    stageLat := ""
    q := ""
    fc := []
    filters := ⟨-1, -1, -1⟩
    drawFeatures := []
    dragMarker := false
    panelOpen := true
    panelTab := PanelTab.create
    fabOpen := false
    statusMsg := "" }

/-- The empty store with the id counter at 1. -/
def st0 : Store := ⟨[], [], 1⟩

/-- Concrete create-form state for the point-create scenario. -/
def truckState : ClientState :=
  { baseState with
    name := "Truck 7"
    rtype := "vehicle"
    rstatus := "active"
    lon := "55.270000"
    lat := "25.200000" }

/-- A state with an active vertex-edit session and no other mode. -/
def c2State : ClientState :=
  { baseState with editing := some ⟨7, "d1"⟩ }

/-- A state in move-pick mode with a point selection. -/
def c5State : ClientState :=
  { baseState with
    movePointMode := MovePointMode.pick
    selectedId := some 9
    selectedGeomType := some GeomKind.point }

/-- A row whose individual fields do not contain `"a site"` although the
synthesized haystack does. -/
def c4Row : ResourceRow :=
  ⟨1, "a", "site", "active", "\x7b\x7d", FGeom.ln ""⟩

/-- A state whose free-text search is `"a site"`. -/
def c4State : ClientState :=
  { baseState with q := "a site" }

/-- A store holding one point resource with id 1. -/
def stWit : Store :=
  ⟨[⟨1, "Truck 7", "vehicle", "active", some "plate", ⟨GeomJson.point "55.270000" "25.200000"⟩⟩],
   [], 2⟩

/-- A move/create state whose staged coordinate strings fail parsing. -/
def badCoordState : ClientState :=
  { baseState with
    selectedId := some 1
    selectedGeomType := some GeomKind.point
    name := "n"
    stageLon := "abc"
    stageLat := "25.2"
    lon := "xy"
    lat := "25.2" }

/-- A state selecting id 42 as a point. -/
def sel42State : ClientState :=
  { baseState with
    selectedId := some 42
    selectedGeomType := some GeomKind.point }

/-- A one-row fetch result not containing id 42. -/
def rowsWit : List ResourceRow :=
  [⟨1, "Pump", "equipment", "active", "\x7b\x7d", FGeom.pt 55 25⟩]

/-- A concrete upload batch: an oversized image, a good image, an image
whose storage upload fails, a later good image and a non-image file. -/
def demoBatch : List (UpFile × UpOutcome) :=
  [(⟨"big.png", "image/png", 25 * 1048576⟩, UpOutcome.ok),
   (⟨"a.png", "image/png", 100⟩, UpOutcome.ok),
   (⟨"bad.png", "image/png", 200⟩, UpOutcome.storageFail),
   (⟨"later.png", "image/png", 300⟩, UpOutcome.ok),
   (⟨"doc.pdf", "application/pdf", 10⟩, UpOutcome.ok)]

/-- A concrete nested geometry with three positions. -/
def demoGeom : Coords :=
  Coords.node [Coords.node [Coords.pair 1 2, Coords.pair 3 0], Coords.pair (-1) 5]

/- ==================== Theorems ==================== -/

/-- Claim C3: invoking the `update_resource` RPC with only the id and the
status supplied (all other parameters null) leaves every existing
resource's name, type, property bag and geometry unchanged, changing only
the status of the row with the given id. -/
theorem c3_status_only_update_frame (st : Store) (p_id : ℤ) (newStatus : String)
    (r : Resource) (hr : r ∈ st.resources) :
    ∃ r' ∈ (update_resource st p_id none none (some newStatus) none none).resources,
      r'.id = r.id ∧ r'.name = r.name ∧ r'.rtype = r.rtype ∧
      r'.properties = r.properties ∧ r'.geom = r.geom ∧
      (r.id = p_id → r'.status = newStatus) ∧ (r.id ≠ p_id → r'.status = r.status) := by
  refine ⟨if r.id = p_id then applyUpdate none none (some newStatus) none none r else r,
    ?_, ?_⟩
  · exact List.mem_map_of_mem _ hr
  · by_cases h : r.id = p_id <;> simp [h, applyUpdate]

/-- Witness for C3 at a concrete one-row store. -/
theorem c3_witness :
    (⟨1, "Truck 7", "vehicle", "active", some "plate",
      ⟨GeomJson.point "55.270000" "25.200000"⟩⟩ : Resource) ∈ stWit.resources ∧
    ∃ r' ∈ (update_resource stWit 1 none none (some "maintenance") none none).resources,
      r'.id = 1 ∧ r'.name = "Truck 7" ∧ r'.rtype = "vehicle" ∧
      r'.properties = some "plate" ∧
      r'.geom = ⟨GeomJson.point "55.270000" "25.200000"⟩ ∧
      ((1 : ℤ) = 1 → r'.status = "maintenance") ∧ ((1 : ℤ) ≠ 1 → r'.status = "active") :=
  ⟨by decide,
   c3_status_only_update_frame stWit 1 "maintenance"
     ⟨1, "Truck 7", "vehicle", "active", some "plate",
      ⟨GeomJson.point "55.270000" "25.200000"⟩⟩ (by decide)⟩

/-- Claim C9: when a staged coordinate string fails numeric parsing, the
move commit and the point create are rejected: no persistence request is
issued and the store is left untouched. -/
theorem c9_invalid_coords_block_commit (s : ClientState) (pp : JsonParse)
    (h1 : isNum s.stageLon = false ∨ isNum s.stageLat = false)
    (h2 : isNum s.lon = false ∨ isNum s.lat = false) :
    (applyMove s).1 = none ∧ (∀ st, applyOpt (applyMove s).1 st = st) ∧
    (createFromFormPoint s pp).1 = none ∧
    (∀ st, applyOpt (createFromFormPoint s pp).1 st = st) := by
  have hmove : (applyMove s).1 = none := by
    unfold applyMove
    cases hsel : s.selectedId with
    | none => rfl
    | some sid =>
      by_cases hg : s.selectedGeomType ≠ some GeomKind.point
      · simp [hg]
      · rcases h1 with h | h <;> simp [hg, h]
  have hcreate : (createFromFormPoint s pp).1 = none := by
    have hv : formValid s = false := by
      unfold formValid
      rcases h2 with h | h <;> simp [h]
    unfold createFromFormPoint
    simp [hv]
  exact ⟨hmove, fun st => by rw [hmove]; rfl, hcreate, fun st => by rw [hcreate]; rfl⟩

/-- Witness for C9 at a concrete state with unparseable staged strings. -/
theorem c9_witness :
    (isNum badCoordState.stageLon = false ∨ isNum badCoordState.stageLat = false) ∧
    (isNum badCoordState.lon = false ∨ isNum badCoordState.lat = false) ∧
    (applyMove badCoordState).1 = none ∧
    (createFromFormPoint badCoordState JsonParse.err).1 = none :=
  ⟨Or.inl (by decide), Or.inl (by decide),
   (c9_invalid_coords_block_commit badCoordState JsonParse.err
      (Or.inl (by decide)) (Or.inl (by decide))).1,
   (c9_invalid_coords_block_commit badCoordState JsonParse.err
      (Or.inl (by decide)) (Or.inl (by decide))).2.2.1⟩

/-- Counterexample to claim C2: entering a create mode while a vertex-edit
session is active leaves the `editing` session state set — the prior
mode's staged data is not fully discarded and two non-idle mode states
coexist. -/
theorem c2_counterexample :
    (startCreate c2State CreateMode.point).createMode = CreateMode.point ∧
    (startCreate c2State CreateMode.point).editing = some ⟨7, "d1"⟩ ∧
    c2State.editing = some ⟨7, "d1"⟩ := by
  refine ⟨by decide, by decide, by decide⟩

/-- Claim C2 (amended): entering any create mode clears the selection,
cancels a move in progress (move mode off, drag handle removed), empties
the draw overlay and activates the new create mode — but the vertex-edit
session state is left exactly as it was. -/
theorem c2_amended_start_create (s : ClientState) (mode : CreateMode) :
    (startCreate s mode).createMode = mode ∧
    (startCreate s mode).movePointMode = MovePointMode.off ∧
    (startCreate s mode).selectedId = none ∧
    (startCreate s mode).selectedGeomType = none ∧
    (startCreate s mode).drawFeatures = [] ∧
    (startCreate s mode).dragMarker = false ∧
    (startCreate s mode).editing = s.editing := by
  cases hf : s.selectedId.bind (fun sid => s.fc.find? (fun r => r.id = sid)) with
  | none => simp [startCreate, cancelMove, hf]
  | some r => cases hg : r.geom <;> simp [startCreate, cancelMove, hf, hg]

/-- The highlight filters written by `selectById` are exactly
`highlightFromSelection` of the new selection. -/
theorem selectById_filters (s : ClientState) (id : ℤ) (k : GeomKind) :
    (selectById s id (some k)).filters = highlightFromSelection (some id) (some k) := rfl

/-- Claim C7: after selecting a feature of a given geometry kind and id,
exactly the highlight filter matching that kind targets the id while the
other two target the sentinel `-1`, and no feature with a real (positive)
id matches the two sentinel filters. -/
theorem c7_highlight_exclusive (s : ClientState) (kind : GeomKind) (id : ℤ)
    (_hid : 0 < id) :
    (selectById s id (some kind)).filters = highlightFromSelection (some id) (some kind) ∧
    ((kind = GeomKind.point →
        highlightFromSelection (some id) (some kind) = ⟨id, -1, -1⟩) ∧
     (kind = GeomKind.lineString →
        highlightFromSelection (some id) (some kind) = ⟨-1, id, -1⟩) ∧
     (kind = GeomKind.polygon →
        highlightFromSelection (some id) (some kind) = ⟨-1, -1, id⟩)) ∧
    (∀ f : ResourceRow, 0 < f.id →
      (MatchesPointSelected (highlightFromSelection (some id) (some kind)) f ↔
        kind = GeomKind.point ∧ f.geom.kind = GeomKind.point ∧ f.id = id) ∧
      (MatchesRouteSelected (highlightFromSelection (some id) (some kind)) f ↔
        kind = GeomKind.lineString ∧ f.geom.kind = GeomKind.lineString ∧ f.id = id) ∧
      (MatchesFenceSelected (highlightFromSelection (some id) (some kind)) f ↔
        kind = GeomKind.polygon ∧ f.geom.kind = GeomKind.polygon ∧ f.id = id)) := by
  refine ⟨selectById_filters s id kind, ?_, ?_⟩
  · cases kind <;> simp [highlightFromSelection]
  · intro f hf
    cases kind <;> cases hg : f.geom.kind <;>
      simp [MatchesPointSelected, MatchesRouteSelected, MatchesFenceSelected,
        highlightFromSelection, hg] <;>
      omega

/-- Witness for C7 at kind Point and id 5. -/
theorem c7_witness :
    (0 : ℤ) < 5 ∧
    (selectById baseState 5 (some GeomKind.point)).filters =
      highlightFromSelection (some 5) (some GeomKind.point) ∧
    highlightFromSelection (some 5) (some GeomKind.point) = ⟨5, -1, -1⟩ :=
  ⟨by decide,
   (c7_highlight_exclusive baseState GeomKind.point 5 (by decide)).1,
   (c7_highlight_exclusive baseState GeomKind.point 5 (by decide)).2.1.1 rfl⟩

/-- Claim C6: a refresh replaces the snapshot and recomputes the highlight
filters but never writes the selection; when the selected id is absent
from the fetched rows, the recomputed filters match no feature of the new
snapshot. -/
theorem c6_refresh_preserves_selection (s : ClientState) (rows : List ResourceRow)
    (hpos : ∀ r ∈ rows, 0 < r.id) :
    (refreshData s rows).selectedId = s.selectedId ∧
    (refreshData s rows).selectedGeomType = s.selectedGeomType ∧
    (refreshData s rows).filters = highlightFromSelection s.selectedId s.selectedGeomType ∧
    (∀ sid, s.selectedId = some sid → (∀ r ∈ rows, r.id ≠ sid) →
      ∀ f ∈ (refreshData s rows).fc,
        ¬ MatchesPointSelected (refreshData s rows).filters f ∧
        ¬ MatchesRouteSelected (refreshData s rows).filters f ∧
        ¬ MatchesFenceSelected (refreshData s rows).filters f) := by
  refine ⟨rfl, rfl, rfl, ?_⟩
  intro sid hsid habs f hf
  have hfr : f ∈ rows := List.mem_of_mem_filter hf
  have hfid : 0 < f.id := hpos f hfr
  have hne : f.id ≠ sid := habs f hfr
  refine ⟨?_, ?_, ?_⟩ <;>
  · rintro ⟨_, hi⟩
    simp only [refreshData, highlightFromSelection, hsid, Option.getD_some] at hi
    split at hi
    · exact hne hi
    · omega

/-- Witness for C6: refreshing while id 42 is selected and absent from the
fetched rows. -/
theorem c6_witness :
    (∀ r ∈ rowsWit, 0 < r.id) ∧
    ((refreshData sel42State rowsWit).selectedId = sel42State.selectedId ∧
     (refreshData sel42State rowsWit).selectedGeomType = sel42State.selectedGeomType ∧
     (refreshData sel42State rowsWit).filters =
       highlightFromSelection sel42State.selectedId sel42State.selectedGeomType ∧
     (∀ sid, sel42State.selectedId = some sid → (∀ r ∈ rowsWit, r.id ≠ sid) →
       ∀ f ∈ (refreshData sel42State rowsWit).fc,
         ¬ MatchesPointSelected (refreshData sel42State rowsWit).filters f ∧
         ¬ MatchesRouteSelected (refreshData sel42State rowsWit).filters f ∧
         ¬ MatchesFenceSelected (refreshData sel42State rowsWit).filters f)) :=
  ⟨by decide, c6_refresh_preserves_selection sel42State rowsWit (by decide)⟩

/-- `selectById` with an explicit geometry kind always installs exactly
that selection. -/
theorem selectById_selection (s : ClientState) (id : ℤ) (k : GeomKind) :
    (selectById s id (some k)).selectedId = some id ∧
    (selectById s id (some k)).selectedGeomType = some k := by
  cases hf : s.fc.find? (fun x => x.id = id) with
  | none => simp [selectById, hf]
  | some x => cases k <;> cases hg : x.geom <;> simp [selectById, hf, hg]

/-- Counterexample to claim C5: a route-layer click while in MovePick mode
is suppressed, although the claim says clicks resolve to a selection
change whenever the mode is Idle or MovePick. -/
theorem c5_counterexample :
    c5State.createMode = CreateMode.off ∧
    c5State.movePointMode = MovePointMode.pick ∧
    handleLayerClick c5State ClickLayer.routes (some 5) = c5State ∧
    (handleLayerClick c5State ClickLayer.routes (some 5)).selectedId = some 9 := by
  decide

/-- Claim C5 (amended): point-layer clicks resolve to a selection change
while Idle or in MovePick; line/polygon-layer clicks resolve only while
Idle; every feature click is suppressed (state unchanged) while a create
mode or MoveDrag is active, and line/polygon clicks are suppressed in any
move mode. -/
theorem c5_amended_click_guards (s : ClientState) (fid : ℤ) :
    (s.createMode = CreateMode.off →
      (s.movePointMode = MovePointMode.off ∨ s.movePointMode = MovePointMode.pick) →
      ∀ L, layerKind L = GeomKind.point →
        (handleLayerClick s L (some fid)).selectedId = some fid ∧
        (handleLayerClick s L (some fid)).selectedGeomType = some GeomKind.point) ∧
    (s.createMode = CreateMode.off → s.movePointMode = MovePointMode.off →
      ∀ L, (handleLayerClick s L (some fid)).selectedId = some fid ∧
           (handleLayerClick s L (some fid)).selectedGeomType = some (layerKind L)) ∧
    (s.createMode ≠ CreateMode.off → ∀ L fo, handleLayerClick s L fo = s) ∧
    (s.movePointMode = MovePointMode.drag → ∀ L fo, handleLayerClick s L fo = s) ∧
    (s.movePointMode ≠ MovePointMode.off →
      ∀ L, layerKind L ≠ GeomKind.point → ∀ fo, handleLayerClick s L fo = s) := by
  refine ⟨?_, ?_, ?_, ?_, ?_⟩
  · intro hc hm L hkL
    have hguard : clickAllowed s L = true := by
      cases L <;> simp [layerKind] at hkL <;>
        rcases hm with h | h <;> simp [clickAllowed, hc, h]
    have hsel := selectById_selection
      (if s.editing ≠ none then { s with drawFeatures := [], editing := none } else s)
      fid (layerKind L)
    simp only [handleLayerClick, hguard, if_true]
    exact ⟨hsel.1, by rw [hsel.2, hkL]⟩
  · intro hc hm L
    have hguard : clickAllowed s L = true := by
      cases L <;> simp [clickAllowed, hc, hm]
    have hsel := selectById_selection
      (if s.editing ≠ none then { s with drawFeatures := [], editing := none } else s)
      fid (layerKind L)
    simp only [handleLayerClick, hguard, if_true]
    exact hsel
  · intro hc L fo
    have hguard : clickAllowed s L = false := by
      cases L <;> simp [clickAllowed, hc]
    simp [handleLayerClick, hguard]
  · intro hd L fo
    have hguard : clickAllowed s L = false := by
      by_cases hc : s.createMode = CreateMode.off <;>
        cases L <;> simp [clickAllowed, hc, hd]
    simp [handleLayerClick, hguard]
  · intro hm L hkL fo
    have hguard : clickAllowed s L = false := by
      by_cases hc : s.createMode = CreateMode.off <;>
        cases L <;> simp [layerKind] at hkL ⊢ <;> simp [clickAllowed, hc, hm]
    simp [handleLayerClick, hguard]

/-- Witness for C5 (amended) at an Idle state and a route click. -/
theorem c5_witness :
    baseState.createMode = CreateMode.off ∧
    baseState.movePointMode = MovePointMode.off ∧
    (handleLayerClick baseState ClickLayer.routes (some 5)).selectedId = some 5 ∧
    (handleLayerClick baseState ClickLayer.routes (some 5)).selectedGeomType =
      some (layerKind ClickLayer.routes) :=
  ⟨rfl, rfl,
   ((c5_amended_click_guards baseState 5).2.1 rfl rfl ClickLayer.routes).1,
   ((c5_amended_click_guards baseState 5).2.1 rfl rfl ClickLayer.routes).2⟩

/-- `leadsWith` decides list-prefix. -/
theorem leadsWith_iff (n : List Char) : ∀ h : List Char,
    leadsWith n h = true ↔ n <+: h := by
  induction n with
  | nil => intro h; simp [leadsWith]
  | cons a as ih =>
    intro h
    cases h with
    | nil =>
      simp only [leadsWith, Bool.false_eq_true, false_iff]
      intro hp
      exact absurd (List.eq_nil_of_prefix_nil hp) (by simp)
    | cons b bs => simp [leadsWith, ih, List.cons_prefix_cons]

/-- `hasSub` decides list-infix (JS `includes` finds a contiguous
occurrence). -/
theorem hasSub_iff (n : List Char) : ∀ h : List Char,
    hasSub n h = true ↔ n <:+: h := by
  intro h
  induction h with
  | nil =>
    simp only [hasSub, List.isEmpty_iff, List.infix_nil]
  | cons c rest ih =>
    simp [hasSub, leadsWith_iff, ih, List.infix_cons_iff]

/-- Lowercasing distributes over string append. -/
theorem lowerData_append (a b : String) :
    lowerData (a ++ b) = lowerData a ++ lowerData b := by
  simp [lowerData, String.data_append]

/-- A list-prefix is a list-infix. -/
theorem isInfix_of_isPre (n h : List Char) (hp : n <+: h) : n <:+: h := by
  obtain ⟨t, ht⟩ := hp
  exact ⟨[], t, by simpa using ht⟩

/-- If one of the four fields contains the needle, so does the synthesized
space-joined haystack. -/
theorem claimFieldContains_subset (q : String) (r : ResourceRow)
    (h : claimFieldContains q r = true) : rowMatchesSearch q r = true := by
  unfold rowMatchesSearch
  by_cases hb : isBlank q
  · simp [hb]
  · simp only [hb, Bool.false_eq_true, if_false]
    rw [hasSub_iff]
    unfold claimFieldContains at h
    simp only [Bool.or_eq_true, hasSub_iff] at h
    have hay : lowerData (rowHay r) =
        lowerData r.name ++ (lowerData " " ++ (lowerData r.rtype ++
          (lowerData " " ++ (lowerData r.status ++ (lowerData " " ++
            lowerData r.propsJson))))) := by
      simp [rowHay, lowerData_append, List.append_assoc]
    rw [hay]
    rcases h with ((h | h) | h) | h
    · exact h.trans (isInfix_of_isPre _ _ ⟨_, rfl⟩)
    · refine h.trans ⟨lowerData r.name ++ lowerData " ",
        lowerData " " ++ (lowerData r.status ++ (lowerData " " ++ lowerData r.propsJson)), ?_⟩
      simp [List.append_assoc]
    · refine h.trans
        ⟨lowerData r.name ++ (lowerData " " ++ (lowerData r.rtype ++ lowerData " ")),
         lowerData " " ++ lowerData r.propsJson, ?_⟩
      simp [List.append_assoc]
    · refine h.trans
        ⟨lowerData r.name ++ (lowerData " " ++ (lowerData r.rtype ++
          (lowerData " " ++ (lowerData r.status ++ lowerData " ")))), [], ?_⟩
      simp [List.append_assoc]

/-- Counterexample to claim C4: with search text `"a site"`, a row named
`"a"` of type `"site"` is kept in the snapshot although none of its four
fields individually contains the search text — the needle matches across
the space-joined haystack boundary. -/
theorem c4_counterexample :
    (refreshData c4State [c4Row]).fc = [c4Row] ∧
    claimFieldContains c4State.q c4Row = false := by
  constructor
  · decide
  · decide

/-- Claim C4 (amended): after a refresh the snapshot holds exactly the
fetched rows whose lowercased space-joined haystack (name, type, status,
serialized property bag) contains the lowercased search text (every row
when the search text is blank); in particular every row with a single
field containing the text is kept, but a text spanning adjacent fields
can match as well. -/
theorem c4_amended_search (s : ClientState) (rows : List ResourceRow) :
    (refreshData s rows).fc = rows.filter (rowMatchesSearch s.q) ∧
    (∀ r ∈ rows, claimFieldContains s.q r = true → r ∈ (refreshData s rows).fc) := by
  refine ⟨rfl, ?_⟩
  intro r hr h
  have hm : rowMatchesSearch s.q r = true := claimFieldContains_subset s.q r h
  simpa [refreshData, List.mem_filter] using ⟨hr, hm⟩

/-- Witness for C4 (amended): a row whose name contains the search text is
kept in the snapshot. -/
theorem c4_witness :
    claimFieldContains c4State.q
      (⟨2, "a site hub", "site", "active", "\x7b\x7d", FGeom.pt 0 0⟩ : ResourceRow) = true ∧
    (⟨2, "a site hub", "site", "active", "\x7b\x7d", FGeom.pt 0 0⟩ : ResourceRow) ∈
      (refreshData c4State
        [⟨2, "a site hub", "site", "active", "\x7b\x7d", FGeom.pt 0 0⟩]).fc :=
  ⟨by decide,
   (c4_amended_search c4State
      [⟨2, "a site hub", "site", "active", "\x7b\x7d", FGeom.pt 0 0⟩]).2
      ⟨2, "a site hub", "site", "active", "\x7b\x7d", FGeom.pt 0 0⟩
      (by decide) (by decide)⟩

/-- The storage calls of a batch are the accepted files up to and
including the first failing one. -/
theorem uploadRun_storage (files : List (UpFile × UpOutcome)) :
    (uploadRun files).storageAttempts =
      specBatchAttempts (files.filter (fun p => acceptedFile p.1)) := by
  induction files with
  | nil => rfl
  | cons p rest ih =>
    obtain ⟨f, out⟩ := p
    by_cases h1 : isImageFile f
    · by_cases h2 : sizeRejected f
      · simp [uploadRun, h1, h2, acceptedFile, List.filter_cons, ih]
      · cases out <;>
          simp [uploadRun, h1, h2, acceptedFile, List.filter_cons, specBatchAttempts, ih]
    · simp [uploadRun, h1, acceptedFile, List.filter_cons, ih]

/-- The metadata rows inserted by a batch are the longest all-successful
leading segment of the accepted files. -/
theorem uploadRun_inserted (files : List (UpFile × UpOutcome)) :
    (uploadRun files).inserted =
      specBatchCommitted (files.filter (fun p => acceptedFile p.1)) := by
  induction files with
  | nil => rfl
  | cons p rest ih =>
    obtain ⟨f, out⟩ := p
    by_cases h1 : isImageFile f
    · by_cases h2 : sizeRejected f
      · simp [uploadRun, h1, h2, acceptedFile, List.filter_cons, ih]
      · cases out <;>
          simp [uploadRun, h1, h2, acceptedFile, List.filter_cons, specBatchCommitted, ih]
    · simp [uploadRun, h1, acceptedFile, List.filter_cons, ih]

/-- Every storage call of a batch names one of the batch's files. -/
theorem specBatchAttempts_subset (l : List (UpFile × UpOutcome)) :
    ∀ n ∈ specBatchAttempts l, n ∈ l.map (fun p => p.1.name) := by
  induction l with
  | nil => simp [specBatchAttempts]
  | cons p rest ih =>
    obtain ⟨f, out⟩ := p
    intro n hn
    cases out with
    | ok =>
      simp only [specBatchAttempts] at hn
      rcases List.mem_cons.mp hn with h | h
      · exact List.mem_cons.mpr (Or.inl (by simpa using h))
      · exact List.mem_cons_of_mem _ (ih n h)
    | storageFail =>
      have hn' : n = f.name := by simpa [specBatchAttempts] using hn
      exact List.mem_cons.mpr (Or.inl (by simpa using hn'))
    | insertFail =>
      have hn' : n = f.name := by simpa [specBatchAttempts] using hn
      exact List.mem_cons.mpr (Or.inl (by simpa using hn'))

/-- After a non-successful element, a batch attempts no further storage
call: every attempted name comes from the leading segment or the failing
file itself. -/
theorem specBatchAttempts_stop (l1 : List (UpFile × UpOutcome)) (f : UpFile)
    (o : UpOutcome) (ho : o ≠ UpOutcome.ok) (l2 : List (UpFile × UpOutcome)) :
    ∀ n ∈ specBatchAttempts (l1 ++ (f, o) :: l2),
      n ∈ l1.map (fun p => p.1.name) ++ [f.name] := by
  induction l1 with
  | nil =>
    cases o with
    | ok => exact absurd rfl ho
    | storageFail => simp [specBatchAttempts]
    | insertFail => simp [specBatchAttempts]
  | cons p rest ih =>
    obtain ⟨g, og⟩ := p
    cases og with
    | ok =>
      intro n hn
      simp only [List.cons_append, specBatchAttempts, List.mem_cons] at hn
      rcases hn with h | h
      · simp [h]
      · have := ih n h
        simp only [List.map_cons, List.cons_append, List.mem_cons]
        exact Or.inr (by simpa using this)
    | storageFail =>
      intro n hn
      simp only [List.cons_append, specBatchAttempts, List.mem_singleton] at hn
      simp [hn]
    | insertFail =>
      intro n hn
      simp only [List.cons_append, specBatchAttempts, List.mem_singleton] at hn
      simp [hn]

/-- A leading segment of all-successful files is entirely committed. -/
theorem specBatchCommitted_all_ok (l1 : List (UpFile × UpOutcome))
    (hok : ∀ q ∈ l1, q.2 = UpOutcome.ok) (rest : List (UpFile × UpOutcome)) :
    specBatchCommitted (l1 ++ rest) =
      l1.map (fun p => p.1.name) ++ specBatchCommitted rest := by
  induction l1 with
  | nil => rfl
  | cons p t ih =>
    obtain ⟨g, og⟩ := p
    have hg : og = UpOutcome.ok := hok (g, og) (List.mem_cons_self _ _)
    subst hg
    have ht : ∀ q ∈ t, q.2 = UpOutcome.ok := fun q hq => hok q (List.mem_cons_of_mem _ hq)
    calc specBatchCommitted (((g, UpOutcome.ok) :: t) ++ rest)
        = g.name :: specBatchCommitted (t ++ rest) := rfl
      _ = g.name :: (t.map (fun p => p.1.name) ++ specBatchCommitted rest) := by rw [ih ht]
      _ = ((g, UpOutcome.ok) :: t).map (fun p => p.1.name) ++ specBatchCommitted rest := rfl

/-- A batch whose `failed` flag is clear showed a skip message for every
locally rejected file. -/
theorem uploadRun_msgs_of_ok (files : List (UpFile × UpOutcome))
    (hok : (uploadRun files).failed = false) :
    ∀ p ∈ files, acceptedFile p.1 = false → skipMsg p.1 ∈ (uploadRun files).msgs := by
  induction files with
  | nil => simp
  | cons p rest ih =>
    obtain ⟨f, out⟩ := p
    intro q hq hrej
    by_cases h1 : isImageFile f
    · by_cases h2 : sizeRejected f
      · have hfail : (uploadRun ((f, out) :: rest)).failed = (uploadRun rest).failed := by
          simp [uploadRun, h1, h2]
        rcases List.mem_cons.mp hq with h | h
        · subst h
          simp [uploadRun, h1, h2]
        · have := ih (by rw [← hfail]; exact hok) q h hrej
          simp only [uploadRun, h1, h2]
          simp only [Bool.not_true, Bool.false_eq_true, if_false, if_true, List.mem_cons]
          exact Or.inr this
      · cases out with
        | storageFail => simp [uploadRun, h1, h2] at hok
        | insertFail => simp [uploadRun, h1, h2] at hok
        | ok =>
          have hfail : (uploadRun ((f, UpOutcome.ok) :: rest)).failed =
              (uploadRun rest).failed := by
            simp [uploadRun, h1, h2]
          rcases List.mem_cons.mp hq with h | h
          · subst h
            simp [acceptedFile, h1, h2] at hrej
          · have := ih (by rw [← hfail]; exact hok) q h hrej
            simpa [uploadRun, h1, h2] using this
    · have hfail : (uploadRun ((f, out) :: rest)).failed = (uploadRun rest).failed := by
        simp [uploadRun, h1]
      rcases List.mem_cons.mp hq with h | h
      · subst h
        simp [uploadRun, h1]
      · have := ih (by rw [← hfail]; exact hok) q h hrej
        simp only [uploadRun, h1]
        simp only [Bool.not_false, Bool.false_eq_true, if_false, if_true, List.mem_cons]
        exact Or.inr this

/-- Claim C8: in one upload batch, every non-image or oversized file is
rejected with a visible message (shown whenever the batch did not abort)
and never reaches storage; accepted files are processed sequentially —
the storage calls are exactly the accepted files up to and including the
first failing one and the metadata inserts exactly the all-successful
leading segment; a storage or insert failure stops every later upload of
the batch; and files committed before a failure stay committed. -/
theorem c8_upload_batch (files : List (UpFile × UpOutcome))
    (hnd : (files.map (fun p => p.1.name)).Nodup) :
    (∀ p ∈ files, acceptedFile p.1 = false →
      p.1.name ∉ (uploadRun files).storageAttempts) ∧
    ((uploadRun files).failed = false →
      ∀ p ∈ files, acceptedFile p.1 = false → skipMsg p.1 ∈ (uploadRun files).msgs) ∧
    ((uploadRun files).storageAttempts =
      specBatchAttempts (files.filter (fun p => acceptedFile p.1))) ∧
    ((uploadRun files).inserted =
      specBatchCommitted (files.filter (fun p => acceptedFile p.1))) ∧
    (∀ pre f o post, files = pre ++ (f, o) :: post → acceptedFile f = true →
      o ≠ UpOutcome.ok → ∀ p ∈ post, p.1.name ∉ (uploadRun files).storageAttempts) ∧
    (∀ pre f post, files = pre ++ (f, UpOutcome.ok) :: post →
      (∀ q ∈ pre, acceptedFile q.1 = true → q.2 = UpOutcome.ok) →
      acceptedFile f = true → f.name ∈ (uploadRun files).inserted) := by
  refine ⟨?_, uploadRun_msgs_of_ok files, uploadRun_storage files,
    uploadRun_inserted files, ?_, ?_⟩
  · intro p hp hrej hmem
    rw [uploadRun_storage] at hmem
    have hmem2 := specBatchAttempts_subset _ _ hmem
    rcases List.mem_map.mp hmem2 with ⟨q, hq, hqn⟩
    have hqf : q ∈ files := (List.mem_filter.mp hq).1
    have hqa : acceptedFile q.1 = true := (List.mem_filter.mp hq).2
    have heq : q = p := List.inj_on_of_nodup_map hnd hqf hp hqn
    rw [heq] at hqa
    rw [hqa] at hrej
    exact Bool.true_eq_false.mp hrej
  · intro pre f o post hsplit hacc ho p hp hmem
    rw [uploadRun_storage] at hmem
    subst hsplit
    rw [List.filter_append, List.filter_cons_of_pos (by simpa using hacc)] at hmem
    have hmem2 := specBatchAttempts_stop _ f o ho _ _ hmem
    have hppost : p ∈ pre ++ (f, o) :: post := by
      simp [List.mem_append, hp]
    rcases List.mem_append.mp hmem2 with h | h
    · rcases List.mem_map.mp h with ⟨q, hq, hqn⟩
      have hqf : q ∈ pre := (List.mem_filter.mp hq).1
      have hqmem : q ∈ pre ++ (f, o) :: post := by
        simp [List.mem_append, hqf]
      have heq : q = p := List.inj_on_of_nodup_map hnd hqmem hppost hqn
      subst heq
      rw [List.map_append, List.nodup_append] at hnd
      exact hnd.2.2 (List.mem_map_of_mem _ hqf)
        (by
          simp only [List.map_cons, List.mem_cons]
          exact Or.inr (List.mem_map_of_mem _ hp))
    · have hfeq : p.1.name = f.name := List.mem_singleton.mp h
      rw [List.map_append, List.nodup_append] at hnd
      have h2 := hnd.2.1
      rw [List.map_cons, List.nodup_cons] at h2
      exact h2.1 (hfeq ▸ List.mem_map_of_mem (fun p => p.1.name) hp)
  · intro pre f post hsplit hok hacc
    rw [uploadRun_inserted]
    subst hsplit
    rw [List.filter_append, List.filter_cons_of_pos (by simpa using hacc)]
    rw [specBatchCommitted_all_ok _
      (fun q hq => hok q (List.mem_filter.mp hq).1 (List.mem_filter.mp hq).2)]
    refine List.mem_append.mpr (Or.inr ?_)
    exact List.mem_cons_self _ _

/-- Witness for C8 on a concrete batch with a rejected oversized image, a
committed upload, a storage failure and files after it. -/
theorem c8_witness :
    (demoBatch.map (fun p => p.1.name)).Nodup ∧
    ((∀ p ∈ demoBatch, acceptedFile p.1 = false →
      p.1.name ∉ (uploadRun demoBatch).storageAttempts) ∧
    ((uploadRun demoBatch).failed = false →
      ∀ p ∈ demoBatch, acceptedFile p.1 = false →
        skipMsg p.1 ∈ (uploadRun demoBatch).msgs) ∧
    ((uploadRun demoBatch).storageAttempts =
      specBatchAttempts (demoBatch.filter (fun p => acceptedFile p.1))) ∧
    ((uploadRun demoBatch).inserted =
      specBatchCommitted (demoBatch.filter (fun p => acceptedFile p.1))) ∧
    (∀ pre f o post, demoBatch = pre ++ (f, o) :: post → acceptedFile f = true →
      o ≠ UpOutcome.ok → ∀ p ∈ post, p.1.name ∉ (uploadRun demoBatch).storageAttempts) ∧
    (∀ pre f post, demoBatch = pre ++ (f, UpOutcome.ok) :: post →
      (∀ q ∈ pre, acceptedFile q.1 = true → q.2 = UpOutcome.ok) →
      acceptedFile f = true → f.name ∈ (uploadRun demoBatch).inserted)) :=
  ⟨by decide, c8_upload_batch demoBatch (by decide)⟩

mutual

/-- `bboxOf`'s walk equals the left fold of the step over the geometry's
positions. -/
theorem bboxWalk_eq_fold : ∀ (c : Coords) (bb : BB),
    bboxWalk c bb = (pairsOf c).foldl bbStep bb
  | Coords.pair _ _, _ => rfl
  | Coords.node cs, bb => bboxWalkList_eq_fold cs bb

/-- List version of `bboxWalk_eq_fold`. -/
theorem bboxWalkList_eq_fold : ∀ (cs : List Coords) (bb : BB),
    bboxWalkList cs bb = (pairsList cs).foldl bbStep bb
  | [], _ => rfl
  | c :: rest, bb => by
    have h1 : bboxWalkList (c :: rest) bb = bboxWalkList rest (bboxWalk c bb) := rfl
    have h2 : pairsList (c :: rest) = pairsOf c ++ pairsList rest := rfl
    rw [h1, bboxWalkList_eq_fold rest (bboxWalk c bb), bboxWalk_eq_fold c bb, h2,
      List.foldl_append]

end

/-- A fold of `min` only descends and bounds every folded value. -/
theorem foldl_min_le {β : Type} [LinearOrder β] (g : ℚ × ℚ → β) :
    ∀ (ps : List (ℚ × ℚ)) (b : β),
      ps.foldl (fun m p => min m (g p)) b ≤ b ∧
      ∀ p ∈ ps, ps.foldl (fun m p => min m (g p)) b ≤ g p := by
  intro ps
  induction ps with
  | nil => intro b; exact ⟨le_refl b, by simp⟩
  | cons q rest ih =>
    intro b
    refine ⟨le_trans (ih (min b (g q))).1 (min_le_left _ _), ?_⟩
    intro p hp
    rcases List.mem_cons.mp hp with h | h
    · subst h
      exact le_trans (ih (min b (g p))).1 (min_le_right _ _)
    · exact (ih (min b (g q))).2 p h

/-- A fold of `min` returns the seed or one of the folded values. -/
theorem foldl_min_eq {β : Type} [LinearOrder β] (g : ℚ × ℚ → β) :
    ∀ (ps : List (ℚ × ℚ)) (b : β),
      ps.foldl (fun m p => min m (g p)) b = b ∨
      ∃ p ∈ ps, ps.foldl (fun m p => min m (g p)) b = g p := by
  intro ps
  induction ps with
  | nil => intro b; exact Or.inl rfl
  | cons q rest ih =>
    intro b
    have hstep : (q :: rest).foldl (fun m p => min m (g p)) b =
        rest.foldl (fun m p => min m (g p)) (min b (g q)) := rfl
    rcases ih (min b (g q)) with h | ⟨p, hp, he⟩
    · rcases le_total b (g q) with hle | hle
      · exact Or.inl (by rw [hstep, h, min_eq_left hle])
      · exact Or.inr ⟨q, List.mem_cons_self _ _, by rw [hstep, h, min_eq_right hle]⟩
    · exact Or.inr ⟨p, List.mem_cons_of_mem _ hp, by rw [hstep, he]⟩

/-- A fold of `max` only ascends and bounds every folded value. -/
theorem foldl_max_le {β : Type} [LinearOrder β] (g : ℚ × ℚ → β) :
    ∀ (ps : List (ℚ × ℚ)) (b : β),
      b ≤ ps.foldl (fun m p => max m (g p)) b ∧
      ∀ p ∈ ps, g p ≤ ps.foldl (fun m p => max m (g p)) b := by
  intro ps
  induction ps with
  | nil => intro b; exact ⟨le_refl b, by simp⟩
  | cons q rest ih =>
    intro b
    refine ⟨le_trans (le_max_left _ _) (ih (max b (g q))).1, ?_⟩
    intro p hp
    rcases List.mem_cons.mp hp with h | h
    · subst h
      exact le_trans (le_max_right _ _) (ih (max b (g p))).1
    · exact (ih (max b (g q))).2 p h

/-- A fold of `max` returns the seed or one of the folded values. -/
theorem foldl_max_eq {β : Type} [LinearOrder β] (g : ℚ × ℚ → β) :
    ∀ (ps : List (ℚ × ℚ)) (b : β),
      ps.foldl (fun m p => max m (g p)) b = b ∨
      ∃ p ∈ ps, ps.foldl (fun m p => max m (g p)) b = g p := by
  intro ps
  induction ps with
  | nil => intro b; exact Or.inl rfl
  | cons q rest ih =>
    intro b
    have hstep : (q :: rest).foldl (fun m p => max m (g p)) b =
        rest.foldl (fun m p => max m (g p)) (max b (g q)) := rfl
    rcases ih (max b (g q)) with h | ⟨p, hp, he⟩
    · rcases le_total b (g q) with hle | hle
      · exact Or.inr ⟨q, List.mem_cons_self _ _, by rw [hstep, h, max_eq_right hle]⟩
      · exact Or.inl (by rw [hstep, h, max_eq_left hle])
    · exact Or.inr ⟨p, List.mem_cons_of_mem _ hp, by rw [hstep, he]⟩

/-- First component of the box fold is the fold of `min` over the x
coordinates. -/
theorem foldl_bbStep_fst (ps : List (ℚ × ℚ)) : ∀ bb : BB,
    (ps.foldl bbStep bb).1 =
      ps.foldl (fun (m : WithTop ℚ) p => min m ↑p.1) bb.1 := by
  induction ps with
  | nil => intro bb; rfl
  | cons q rest ih => intro bb; exact ih (bbStep bb q)

/-- Second component of the box fold is the fold of `min` over the y
coordinates. -/
theorem foldl_bbStep_snd (ps : List (ℚ × ℚ)) : ∀ bb : BB,
    (ps.foldl bbStep bb).2.1 =
      ps.foldl (fun (m : WithTop ℚ) p => min m ↑p.2) bb.2.1 := by
  induction ps with
  | nil => intro bb; rfl
  | cons q rest ih => intro bb; exact ih (bbStep bb q)

/-- Third component of the box fold is the fold of `max` over the x
coordinates. -/
theorem foldl_bbStep_thd (ps : List (ℚ × ℚ)) : ∀ bb : BB,
    (ps.foldl bbStep bb).2.2.1 =
      ps.foldl (fun (m : WithBot ℚ) p => max m ↑p.1) bb.2.2.1 := by
  induction ps with
  | nil => intro bb; rfl
  | cons q rest ih => intro bb; exact ih (bbStep bb q)

/-- Fourth component of the box fold is the fold of `max` over the y
coordinates. -/
theorem foldl_bbStep_fth (ps : List (ℚ × ℚ)) : ∀ bb : BB,
    (ps.foldl bbStep bb).2.2.2 =
      ps.foldl (fun (m : WithBot ℚ) p => max m ↑p.2) bb.2.2.2 := by
  induction ps with
  | nil => intro bb; rfl
  | cons q rest ih => intro bb; exact ih (bbStep bb q)

/-- Claim C10: for a geometry with at least one numeric `[x, y]` position,
`bboxOf` returns finite `[minX, minY, maxX, maxY]` bounding every
position, and each bound is attained by some position. -/
theorem c10_bbox_minmax (g : Coords) (hne : pairsOf g ≠ []) :
    ∃ a b c d : ℚ, bboxOf g = (↑a, ↑b, ↑c, ↑d) ∧
      (∀ p ∈ pairsOf g, a ≤ p.1 ∧ p.1 ≤ c ∧ b ≤ p.2 ∧ p.2 ≤ d) ∧
      (∃ p ∈ pairsOf g, p.1 = a) ∧ (∃ p ∈ pairsOf g, p.2 = b) ∧
      (∃ p ∈ pairsOf g, p.1 = c) ∧ (∃ p ∈ pairsOf g, p.2 = d) := by
  obtain ⟨p0, hp0⟩ := List.exists_mem_of_ne_nil _ hne
  have hfold : bboxOf g = (pairsOf g).foldl bbStep (⊤, ⊤, ⊥, ⊥) :=
    bboxWalk_eq_fold g _
  have hminx := foldl_min_le (fun p => ((p.1 : ℚ) : WithTop ℚ)) (pairsOf g) ⊤
  have hminy := foldl_min_le (fun p => ((p.2 : ℚ) : WithTop ℚ)) (pairsOf g) ⊤
  have hmaxx := foldl_max_le (fun p => ((p.1 : ℚ) : WithBot ℚ)) (pairsOf g) ⊥
  have hmaxy := foldl_max_le (fun p => ((p.2 : ℚ) : WithBot ℚ)) (pairsOf g) ⊥
  obtain ⟨pa, hpa, hae⟩ : ∃ p ∈ pairsOf g,
      (pairsOf g).foldl (fun m p => min m ↑p.1) (⊤ : WithTop ℚ) = ↑p.1 := by
    rcases foldl_min_eq (fun p => ((p.1 : ℚ) : WithTop ℚ)) (pairsOf g) ⊤ with h | h
    · exfalso
      have hle := hminx.2 p0 hp0
      rw [h] at hle
      exact WithTop.coe_ne_top (top_le_iff.mp hle)
    · exact h
  obtain ⟨pb, hpb, hbe⟩ : ∃ p ∈ pairsOf g,
      (pairsOf g).foldl (fun m p => min m ↑p.2) (⊤ : WithTop ℚ) = ↑p.2 := by
    rcases foldl_min_eq (fun p => ((p.2 : ℚ) : WithTop ℚ)) (pairsOf g) ⊤ with h | h
    · exfalso
      have hle := hminy.2 p0 hp0
      rw [h] at hle
      exact WithTop.coe_ne_top (top_le_iff.mp hle)
    · exact h
  obtain ⟨pc, hpc, hce⟩ : ∃ p ∈ pairsOf g,
      (pairsOf g).foldl (fun m p => max m ↑p.1) (⊥ : WithBot ℚ) = ↑p.1 := by
    rcases foldl_max_eq (fun p => ((p.1 : ℚ) : WithBot ℚ)) (pairsOf g) ⊥ with h | h
    · exfalso
      have hle := hmaxx.2 p0 hp0
      rw [h] at hle
      exact WithBot.coe_ne_bot (le_bot_iff.mp hle)
    · exact h
  obtain ⟨pd, hpd, hde⟩ : ∃ p ∈ pairsOf g,
      (pairsOf g).foldl (fun m p => max m ↑p.2) (⊥ : WithBot ℚ) = ↑p.2 := by
    rcases foldl_max_eq (fun p => ((p.2 : ℚ) : WithBot ℚ)) (pairsOf g) ⊥ with h | h
    · exfalso
      have hle := hmaxy.2 p0 hp0
      rw [h] at hle
      exact WithBot.coe_ne_bot (le_bot_iff.mp hle)
    · exact h
  refine ⟨pa.1, pb.2, pc.1, pd.2, ?_, ?_, ⟨pa, hpa, rfl⟩, ⟨pb, hpb, rfl⟩,
    ⟨pc, hpc, rfl⟩, ⟨pd, hpd, rfl⟩⟩
  · rw [hfold]
    have c1 : ((pairsOf g).foldl bbStep (⊤, ⊤, ⊥, ⊥) : BB).1 = ↑pa.1 := by
      rw [foldl_bbStep_fst]; exact hae
    have c2 : ((pairsOf g).foldl bbStep (⊤, ⊤, ⊥, ⊥) : BB).2.1 = ↑pb.2 := by
      rw [foldl_bbStep_snd]; exact hbe
    have c3 : ((pairsOf g).foldl bbStep (⊤, ⊤, ⊥, ⊥) : BB).2.2.1 = ↑pc.1 := by
      rw [foldl_bbStep_thd]; exact hce
    have c4 : ((pairsOf g).foldl bbStep (⊤, ⊤, ⊥, ⊥) : BB).2.2.2 = ↑pd.2 := by
      rw [foldl_bbStep_fth]; exact hde
    exact Prod.ext_iff.mpr ⟨c1, Prod.ext_iff.mpr ⟨c2, Prod.ext_iff.mpr ⟨c3, c4⟩⟩⟩
  · intro q hq
    refine ⟨?_, ?_, ?_, ?_⟩
    · exact WithTop.coe_le_coe.mp (by rw [← hae]; exact hminx.2 q hq)
    · exact WithBot.coe_le_coe.mp (by rw [← hce]; exact hmaxx.2 q hq)
    · exact WithTop.coe_le_coe.mp (by rw [← hbe]; exact hminy.2 q hq)
    · exact WithBot.coe_le_coe.mp (by rw [← hde]; exact hmaxy.2 q hq)

/-- Witness for C10 at a concrete nested geometry. -/
theorem c10_witness :
    pairsOf demoGeom ≠ [] ∧
    (∃ a b c d : ℚ, bboxOf demoGeom = (↑a, ↑b, ↑c, ↑d) ∧
      (∀ p ∈ pairsOf demoGeom, a ≤ p.1 ∧ p.1 ≤ c ∧ b ≤ p.2 ∧ p.2 ≤ d) ∧
      (∃ p ∈ pairsOf demoGeom, p.1 = a) ∧ (∃ p ∈ pairsOf demoGeom, p.2 = b) ∧
      (∃ p ∈ pairsOf demoGeom, p.1 = c) ∧ (∃ p ∈ pairsOf demoGeom, p.2 = d)) :=
  ⟨by simp [demoGeom, pairsOf, pairsList],
   c10_bbox_minmax demoGeom (by simp [demoGeom, pairsOf, pairsList])⟩

/-- Claim C1 evaluated on the code: both successful create paths issue a
direct `resources` table insert — the form-submit point create and the
draw-finish create each add one resource row and append no
`resource_activity` record, while the repo's audit-logging RPC
`create_resource_from_geojson` (which the client never calls) would
append exactly one record with action `create`. -/
theorem c1_create_bypasses_audit :
    ((createFromFormPoint truckState (JsonParse.ok (some "plate AB-123"))).1 =
      some (PersistCall.insertRow "Truck 7" "vehicle" "active" (some "plate AB-123")
        (GeomJson.point "55.270000" "25.200000"))) ∧
    ((applyOpt (createFromFormPoint truckState (JsonParse.ok (some "plate AB-123"))).1
        st0).resources.length = 1) ∧
    ((applyOpt (createFromFormPoint truckState (JsonParse.ok (some "plate AB-123"))).1
        st0).activity = []) ∧
    ((applyOpt (drawCreateHandler baseState true "poly1" JsonParse.err
        "2025-01-01T00:00:00").1 st0).resources.length = 1) ∧
    ((applyOpt (drawCreateHandler baseState true "poly1" JsonParse.err
        "2025-01-01T00:00:00").1 st0).activity = []) ∧
    ((create_resource_from_geojson st0 "Truck 7" "vehicle" (some "active")
        (some "plate AB-123") (GeomJson.point "55.270000" "25.200000")).activity =
      [⟨some 1, "create", none,
        some ⟨1, "Truck 7", "vehicle", "active", some "plate AB-123",
          ⟨GeomJson.point "55.270000" "25.200000"⟩⟩⟩]) := by
  refine ⟨by decide, by decide, by decide, by decide, by decide, by decide⟩
